import Mathlib

/-!
# Verification of the Artifact-Ai similarity / normalization / graph core

Shallow embedding of the similarity engine (`calculateSim`, the pairwise
similarity `useEffect` loop, `getScore`), the entity normalizer
(`mapChronologyFuzzy`, chronology deduplication, `stringToHash` / site-id
derivation) and the graph builder (`linkData` filter) together with the
drag-start interaction handler of the network graph, with proofs of the
behavioural properties stated for them.

Numbers that are IEEE doubles in the source are modelled as rationals `ℚ`
(every constant involved is exactly representable and every operation used
is exact on the values reached), and JavaScript 32-bit signed integer
wrap-around is modelled explicitly on `ℤ`.
-/

namespace ArtifactAi

/-- The `Chronology` enum of `types.ts`. -/
inductive Chronology where
  | MEGALITHIC
  | SANGAM
  | EARLY_HISTORIC
  | MEDIEVAL
  | UNKNOWN
deriving DecidableEq

/-- The `Artifact` interface of `types.ts`. -/
structure Artifact where
  name : String
  material : String
  category : String
  description : String
deriving DecidableEq

/-- The `location` field of the `Site` interface (`lat`/`lng` as exact rationals). -/
structure Location where
  lat : ℚ
  lng : ℚ
  district : String
deriving DecidableEq

/-- The `Site` interface of `types.ts` (the optional mock `embedding` field is unused). -/
structure Site where
  id : String
  name : String
  location : Location
  chronology : List Chronology
  description : String
  artifacts : List Artifact
  structures : List String
deriving DecidableEq

/-- The `SimilarityResult` interface of `types.ts`. -/
structure SimilarityResult where
  sourceId : String
  targetId : String
  score : ℚ
  explanation : String
  sharedEntities : List String
deriving DecidableEq

/-- JavaScript `String.prototype.toLowerCase` (character-wise lower-casing). -/
def toLowerStr (s : String) : String :=
  String.mk (s.data.map Char.toLower)

/-- The lower-cased, deduplicated set of artifact materials of a site:
`new Set(a.artifacts.map(art => art.material.toLowerCase()))` in `calculateSim`. -/
def materialsOf (s : Site) : Finset String :=
  (s.artifacts.map (fun a => toLowerStr a.material)).toFinset

/-- `calculateSim` from `App` (Jaccard score over lower-cased artifact materials;
`0` when the union is empty). -/
def calculateSim (a b : Site) : ℚ :=
  let materialsA := materialsOf a
  let materialsB := materialsOf b
  let intersection := materialsA ∩ materialsB
  let union := materialsA ∪ materialsB
  if union.card = 0 then 0 else (intersection.card : ℚ) / (union.card : ℚ)

/-- The Adichanallur record of `TN_SITES` (`mockData.ts`). -/
def adichanallur : Site where
  id := "adichanallur"
  name := "Adichanallur"
  location := { lat := 8.6291, lng := 77.8765, district := "Thoothukudi" }
  chronology := [Chronology.MEGALITHIC]
  description := "An extensive urn-burial site containing a vast number of skeletal remains and iron artifacts."
  artifacts :=
    [ { name := "Urns", material := "Terracotta", category := "pottery",
        description := "Large burial urns often containing skeletons." },
      { name := "Swords", material := "Iron", category := "tool",
        description := "Double-edged iron swords found in burials." },
      { name := "Gold Diadems", material := "Gold", category := "ornament",
        description := "Small gold leaf ornaments for the forehead." } ]
  structures := ["Urn burial pits", "Habitation mounds"]

/-- The Keezhadi record of `TN_SITES` (`mockData.ts`). -/
def keezhadi : Site where
  id := "keezhadi"
  name := "Keezhadi"
  location := { lat := 9.8631, lng := 78.1883, district := "Sivaganga" }
  chronology := [Chronology.SANGAM, Chronology.EARLY_HISTORIC]
  description := "A large urban settlement showing advanced civic planning and Tamil-Brahmi script."
  artifacts :=
    [ { name := "Tamil-Brahmi Potsherds", material := "Terracotta", category := "pottery",
        description := "Pottery inscribed with personal names." },
      { name := "Glass Beads", material := "Glass", category := "bead",
        description := "Evidence of local manufacturing of luxury items." },
      { name := "Game Pieces", material := "Terracotta", category := "other",
        description := "Dice and hopscotches indicating leisure activities." } ]
  structures := ["Brick walls", "Ring wells", "Open drainage system"]

/-- The Kodumanal record of `TN_SITES` (`mockData.ts`). -/
def kodumanal : Site where
  id := "kodumanal"
  name := "Kodumanal"
  location := { lat := 11.1090, lng := 77.4580, district := "Erode" }
  chronology := [Chronology.MEGALITHIC, Chronology.SANGAM]
  description := "A major industrial and trade center specializing in semi-precious stone beads and iron smelting."
  artifacts :=
    [ { name := "Carnelian Beads", material := "Carnelian", category := "bead",
        description := "Etched beads indicating trade with Indus region." },
      { name := "Iron Furnaces", material := "Iron", category := "other",
        description := "Remains of high-quality steel production." },
      { name := "Punch-marked Coins", material := "Silver", category := "coin",
        description := "Early Indian coinage used in trade." } ]
  structures := ["Stone circles", "Iron smelting furnaces", "Cist burials"]

/-- The Arikamedu record of `TN_SITES` (`mockData.ts`). -/
def arikamedu : Site where
  id := "arikamedu"
  name := "Arikamedu"
  location := { lat := 11.8942, lng := 79.8290, district := "Puducherry" }
  chronology := [Chronology.EARLY_HISTORIC]
  description := "An Indo-Roman trading station on the Coromandel coast."
  artifacts :=
    [ { name := "Amphorae", material := "Terracotta", category := "pottery",
        description := "Mediterranean wine jars." },
      { name := "Rouletted Ware", material := "Terracotta", category := "pottery",
        description := "Fine pottery with concentric machine-turned patterns." },
      { name := "Arretine Ware", material := "Terracotta", category := "pottery",
        description := "Red glazed Italian pottery." } ]
  structures := ["Warehouse remains", "Brick tanks", "Wharfs"]

/-- The Porunthal record of `TN_SITES` (`mockData.ts`). -/
def porunthal : Site where
  id := "porunthal"
  name := "Porunthal"
  location := { lat := 10.5100, lng := 77.4800, district := "Dindigul" }
  chronology := [Chronology.SANGAM]
  description := "Noted for the discovery of paddy in grave urns and rich bead deposits."
  artifacts :=
    [ { name := "Paddy Grains", material := "Organic", category := "other",
        description := "Carbonized rice found in burial urns." },
      { name := "Banded Agate Beads", material := "Agate", category := "bead",
        description := "High quality imported semi-precious stones." },
      { name := "Graffiti Pottery", material := "Terracotta", category := "pottery",
        description := "Post-firing markings on black and red ware." } ]
  structures := ["Habitation mounds", "Megalithic burials"]

/-- The bundled `TN_SITES` list of `mockData.ts`. -/
def TN_SITES : List Site :=
  [adichanallur, keezhadi, kodumanal, arikamedu, porunthal]

/-- One `SimilarityResult` as pushed by the similarity `useEffect` of `App`
(empty explanation, empty shared entities). -/
def mkSimResult (a b : Site) : SimilarityResult :=
  { sourceId := a.id, targetId := b.id, score := calculateSim a b,
    explanation := "", sharedEntities := [] }

/-- The nested `for i / for j in (i+1)..` loop of the similarity `useEffect` of
`App`: one result per index pair `i < j`, in loop order. -/
def pairResults : List Site → List SimilarityResult
  | [] => []
  | a :: rest => rest.map (mkSimResult a) ++ pairResults rest

/-- Whether a result carries the unordered pair `{x, y}` in either orientation. -/
def matchPair (r : SimilarityResult) (x y : String) : Bool :=
  decide ((r.sourceId = x ∧ r.targetId = y) ∨ (r.sourceId = y ∧ r.targetId = x))

/-- The link datum built by `NetworkGraph`'s `linkData` map step
(`{ source, target, score }`). -/
structure LinkDatum where
  source : String
  target : String
  score : ℚ
deriving DecidableEq

/-- The filter predicate of `NetworkGraph.linkData`:
`l.score > 0.2 && nodeIds.has(l.sourceId) && nodeIds.has(l.targetId)`
(`mkRat 1 5` is the threshold 0.2). -/
def keepLink (nodeIds : List String) (l : SimilarityResult) : Bool :=
  decide (mkRat 1 5 < l.score) && nodeIds.contains l.sourceId && nodeIds.contains l.targetId

/-- `linkData` of `NetworkGraph`: filter the similarity results by score and
endpoint existence, then project to `{source, target, score}`. -/
def linkData (sites : List Site) (links : List SimilarityResult) : List LinkDatum :=
  (links.filter (keepLink (sites.map Site.id))).map
    (fun l => { source := l.sourceId, target := l.targetId, score := l.score })

/-- `getScore` of `SimilarityMatrix`: `1` on the diagonal, otherwise the score of
the first result matching the pair in either orientation, else `0`. -/
def getScore (results : List SimilarityResult) (id1 id2 : String) : ℚ :=
  if id1 = id2 then 1
  else
    match results.find? (fun r => matchPair r id1 id2) with
    | some r => r.score
    | none => 0

/-! ## Entity normalizer: fuzzy chronology mapping (`Dashboard.tsx`) -/

/-- A character kept by the strip `replace(/[^a-z0-9]/g, '')` applied after
lower-casing in `mapChronologyFuzzy`. -/
def isKeptChar (c : Char) : Bool :=
  ('a' ≤ c && c ≤ 'z') || ('0' ≤ c && c ≤ '9')

/-- `raw.toLowerCase().replace(/[^a-z0-9]/g, '')` as a character list. -/
def normalizeText (raw : String) : List Char :=
  (raw.data.map Char.toLower).filter isKeptChar

/-- Whether `hay` starts with `needle` (helper for substring search). -/
def listStartsWith : List Char → List Char → Bool
  | [], _ => true
  | _ :: _, [] => false
  | a :: as, b :: bs => a = b && listStartsWith as bs

/-- JavaScript `String.prototype.includes`: does `hay` contain `needle` as a
contiguous substring? -/
def listHasSub (needle : List Char) : List Char → Bool
  | [] => needle.isEmpty
  | c :: rest => listStartsWith needle (c :: rest) || listHasSub needle rest

/-- One entry of `mappingGroups` in `mapChronologyFuzzy`: a canonical category
(field `enum` in the source) with its keyword group. -/
structure MappingGroup where
  chron : Chronology
  keywords : List String
deriving DecidableEq

/-- The MEGALITHIC keyword group of `mapChronologyFuzzy`. -/
def mgMegalithic : MappingGroup :=
  { chron := Chronology.MEGALITHIC,
    keywords := ["megalithic", "megalith", "ironage", "urnburial", "megalithicage",
                 "cist", "dolmen", "menhir"] }

/-- The SANGAM keyword group of `mapChronologyFuzzy`. -/
def mgSangam : MappingGroup :=
  { chron := Chronology.SANGAM,
    keywords := ["sangam", "sangamage", "sangamperiod", "earlysangam", "earlytamil",
                 "cheran", "cholan", "pandiyan", "tamizh"] }

/-- The EARLY_HISTORIC keyword group of `mapChronologyFuzzy`. -/
def mgEarlyHistoric : MappingGroup :=
  { chron := Chronology.EARLY_HISTORIC,
    keywords := ["earlyhistoric", "earlyhistorical", "earlyhistoricperiod", "historicperiod",
                 "earlydynastic", "indoroman", "buddhist", "jain", "maurya", "satavahana",
                 "palaeography"] }

/-- The MEDIEVAL keyword group of `mapChronologyFuzzy`. -/
def mgMedieval : MappingGroup :=
  { chron := Chronology.MEDIEVAL,
    keywords := ["medieval", "medival", "chola", "pandya", "pallava", "middleages",
                 "laterhistoric", "vijayanagara", "nayaka", "islamic", "sultanate"] }

/-- The ordered `mappingGroups` list of `mapChronologyFuzzy`. -/
def mappingGroups : List MappingGroup :=
  [mgMegalithic, mgSangam, mgEarlyHistoric, mgMedieval]

/-- Whether any keyword of group `g` occurs in the stripped form of `raw`
(`group.keywords.some(k => text.includes(k))`). -/
def groupHit (g : MappingGroup) (raw : String) : Bool :=
  g.keywords.any (fun k => listHasSub k.data (normalizeText raw))

/-- `mapChronologyFuzzy` of `Dashboard.tsx`: first keyword group containing a
matching substring wins; `UNKNOWN` when none matches. -/
def mapChronologyFuzzy (raw : String) : Chronology :=
  match mappingGroups.find? (fun g => groupHit g raw) with
  | some g => g.chron
  | none => Chronology.UNKNOWN

/-- Helper for first-occurrence deduplication: keep each element not already
seen, in order. -/
def dedupFirstAux (seen : List Chronology) : List Chronology → List Chronology
  | [] => []
  | c :: rest =>
    if c ∈ seen then dedupFirstAux seen rest
    else c :: dedupFirstAux (c :: seen) rest

/-- First-occurrence deduplication, as `Array.from(new Set(...))` performs on
the mapped chronology list. -/
def dedupFirst (l : List Chronology) : List Chronology :=
  dedupFirstAux [] l

/-- The chronology list stored on an ingested site (`Dashboard.tsx`): map raw
labels through `mapChronologyFuzzy`, deduplicate, drop `UNKNOWN` if more than
one member remains, and default to `[UNKNOWN]` when empty. -/
def finalChronology (raws : List String) : List Chronology :=
  let uniqueChronology := dedupFirst (raws.map mapChronologyFuzzy)
  let uniqueChronology2 :=
    if 1 < uniqueChronology.length then
      uniqueChronology.filter (fun c => decide (c ≠ Chronology.UNKNOWN))
    else uniqueChronology
  if 0 < uniqueChronology2.length then uniqueChronology2 else [Chronology.UNKNOWN]

/-! ## Entity normalizer: deterministic identifier derivation (`Dashboard.tsx`) -/

/-- JavaScript `| 0`: wrap an integer to the signed 32-bit range. -/
def toInt32 (x : ℤ) : ℤ :=
  (x + 2 ^ 31) % 2 ^ 32 - 2 ^ 31

/-- One iteration of the `stringToHash` loop:
`hash = ((hash << 5) - hash) + char; hash |= 0` (the shift itself wraps to
32 bits in JavaScript before the subtraction). -/
def hashStep (hash : ℤ) (c : Char) : ℤ :=
  toInt32 (toInt32 (hash * 32) - hash + c.toNat)

/-- The 32-bit rolling accumulator of `stringToHash` over the character codes. -/
def hash32 (str : String) : ℤ :=
  str.data.foldl hashStep 0

/-- A base-36 digit character (`0`-`9` then `a`-`z`). -/
def base36Digit (d : ℕ) : Char :=
  if d < 10 then Char.ofNat (48 + d) else Char.ofNat (87 + d)

/-- Digit-peeling loop of `Number.prototype.toString(36)`. -/
def toBase36Aux (n : ℕ) (acc : List Char) : List Char :=
  if h : n < 36 then base36Digit n :: acc
  else toBase36Aux (n / 36) (base36Digit (n % 36) :: acc)
termination_by n
decreasing_by
  exact Nat.div_lt_self (by omega) (by omega)

/-- `Number.prototype.toString(36)` on a nonnegative integer. -/
def toBase36 (n : ℕ) : String :=
  String.mk (toBase36Aux n [])

/-- `stringToHash` of `Dashboard.tsx`: rolling 32-bit hash, absolute value,
base-36 rendering. -/
def stringToHash (str : String) : String :=
  toBase36 (hash32 str).natAbs

/-- The composite `siteId` of `Dashboard.tsx`
(`${normalizedName}-${normalizedDistrict}-${contentHash}` with the hash taken
over `${normalizedName}-${normalizedDistrict}-${Date.now()}`; the `Date.now()`
salt is a parameter here). -/
def siteId (normalizedName normalizedDistrict salt : String) : String :=
  normalizedName ++ "-" ++ normalizedDistrict ++ "-" ++
    stringToHash (normalizedName ++ "-" ++ normalizedDistrict ++ "-" ++ salt)

/-! ## Force-simulator drag-start handler (`NetworkGraph.tsx`) -/

/-- A simulation node as mutated by the drag handlers: current position and
optional pinned position (`fx`/`fy`). -/
structure DragNode where
  x : ℚ
  y : ℚ
  fx : Option ℚ
  fy : Option ℚ
deriving DecidableEq

/-- The d3 simulation state visible to the drag handlers: the excitation
`alpha`, its target, and whether ticking is scheduled. -/
structure SimState where
  alpha : ℚ
  alphaTarget : ℚ
  running : Bool
deriving DecidableEq

/-- The d3-force `simulation.alphaTarget(t)` call (external library): sets the
target excitation toward which `alpha` is interpolated on later ticks; it does
not modify `alpha` itself. -/
def simAlphaTarget (s : SimState) (t : ℚ) : SimState :=
  { s with alphaTarget := t }

/-- The d3-force `simulation.restart()` call (external library): restarts the
internal tick timer; it does not modify `alpha`. -/
def simRestart (s : SimState) : SimState :=
  { s with running := true }

/-- `dragstarted` of `NetworkGraph.tsx`:
`if (!event.active) simulation.alphaTarget(0.3).restart();` then pin the
subject at its current position (`fx = x; fy = y`). `mkRat 3 10` is the
literal 0.3. -/
def dragstarted (active : Bool) (s : SimState) (n : DragNode) : SimState × DragNode :=
  let s' := if !active then simRestart (simAlphaTarget s (mkRat 3 10)) else s
  (s', { n with fx := some n.x, fy := some n.y })

/-! ## Concrete inputs used to exercise the definitions -/

/-- The first fuzzy-mapping example input. -/
def exMega : String := "Megalithic Age burial"

/-- The second fuzzy-mapping example input. -/
def exUnrelated : String := "completely unrelated text"

/-- A minimal site with identifier `a` (for graph-builder and matrix checks). -/
def demoA : Site where
  id := "a"
  name := "A"
  location := { lat := 0, lng := 0, district := "d1" }
  chronology := []
  description := "demo"
  artifacts := []
  structures := []

/-- A minimal site with identifier `b`. -/
def demoB : Site where
  id := "b"
  name := "B"
  location := { lat := 0, lng := 0, district := "d2" }
  chronology := []
  description := "demo"
  artifacts := []
  structures := []

/-- Working set for the graph-builder checks. -/
def demoSites : List Site := [demoA, demoB]

/-- An edge of score 0.25 between the two demo sites. -/
def demoLink25 : SimilarityResult where
  sourceId := "a"
  targetId := "b"
  score := mkRat 1 4
  explanation := ""
  sharedEntities := []

/-- An edge of score 0.1 between the two demo sites. -/
def demoLink10 : SimilarityResult where
  sourceId := "a"
  targetId := "b"
  score := mkRat 1 10
  explanation := ""
  sharedEntities := []

/-- A high-score edge referencing an absent site identifier. -/
def demoLinkGhost : SimilarityResult where
  sourceId := "a"
  targetId := "ghost"
  score := mkRat 9 10
  explanation := ""
  sharedEntities := []

/-- Edge list for the graph-builder checks. -/
def demoLinks : List SimilarityResult := [demoLink25, demoLink10, demoLinkGhost]

/-- An identifier absent from the demo edge list (for the no-match lookup). -/
def absentId : String := "zz"

/-- Concrete simulation state for the drag-start check (converged: `alpha = 0`). -/
def dragDemoState : SimState where
  alpha := 0
  alphaTarget := 0
  running := false

/-- Concrete node for the drag-start check, resting at `(5, 7)`, unpinned. -/
def dragDemoNode : DragNode where
  x := 5
  y := 7
  fx := none
  fy := none

/-! ## Theorems -/

/-- C1: the similarity score is symmetric: `score(a,b) = score(b,a)` for every
pair of sites. -/
theorem calculateSim_symm (a b : Site) : calculateSim a b = calculateSim b a := by
  simp only [calculateSim]
  rw [Finset.inter_comm, Finset.union_comm]

/-- C2: the similarity score always lies in `[0,1]`, and when both sites have
empty artifact lists (hence an empty union of materials) it is exactly `0`
(no `NaN` can arise in the exact rational embedding). -/
theorem calculateSim_bounds (a b : Site) :
    0 ≤ calculateSim a b ∧ calculateSim a b ≤ 1 ∧
      (a.artifacts = [] → b.artifacts = [] → calculateSim a b = 0) := by
  have hsub : (materialsOf a ∩ materialsOf b).card ≤ (materialsOf a ∪ materialsOf b).card :=
    Finset.card_le_card Finset.inter_subset_union
  refine ⟨?_, ?_, ?_⟩
  · simp only [calculateSim]
    split
    · exact le_refl 0
    · positivity
  · simp only [calculateSim]
    split
    · norm_num
    · next h =>
      rw [div_le_one (by exact_mod_cast Nat.pos_of_ne_zero h)]
      exact_mod_cast hsub
  · intro ha hb
    simp [calculateSim, materialsOf, ha, hb]

/-- C2 witness: two concrete sites with empty artifact lists score exactly `0`. -/
theorem calculateSim_bounds_witness : calculateSim demoA demoB = 0 :=
  (calculateSim_bounds demoA demoB).2.2 rfl rfl

/-- C3: on the bundled Adichanallur and Keezhadi records, the material sets are
`{terracotta, iron, gold}` and `{terracotta, glass}` after lower-casing and
deduplication, and the score is `1/4 = 0.25`. -/
theorem calculateSim_worked_example :
    calculateSim adichanallur keezhadi = 1 / 4 ∧
    materialsOf adichanallur = {"terracotta", "iron", "gold"} ∧
    materialsOf keezhadi = {"terracotta", "glass"} ∧
    adichanallur ∈ TN_SITES ∧ keezhadi ∈ TN_SITES := by
  have h1 : (materialsOf adichanallur ∩ materialsOf keezhadi).card = 1 := by decide
  have h2 : (materialsOf adichanallur ∪ materialsOf keezhadi).card = 4 := by decide
  refine ⟨?_, by decide, by decide, by simp [TN_SITES], by simp [TN_SITES]⟩
  simp only [calculateSim, h1, h2]
  norm_num

/-- The 0.2 threshold literal of `linkData`. -/
theorem mkRat_one_five : mkRat 1 5 = (0.2 : ℚ) := by
  rw [Rat.mkRat_eq_div]
  norm_num

/-- C5: graph construction includes an edge exactly when its score exceeds the
threshold 0.2 and both endpoint identifiers occur in the current node set; on
concrete data, a score-0.25 edge survives while a score-0.1 edge and a
high-score edge with an absent endpoint are silently dropped. -/
theorem linkData_spec :
    (∀ (sites : List Site) (links : List SimilarityResult) (d : LinkDatum),
        d ∈ linkData sites links ↔
          (∃ l ∈ links, l.sourceId = d.source ∧ l.targetId = d.target ∧ l.score = d.score) ∧
            ((0.2 : ℚ) < d.score ∧ d.source ∈ sites.map Site.id ∧
              d.target ∈ sites.map Site.id)) ∧
    linkData demoSites demoLinks = [{ source := "a", target := "b", score := mkRat 1 4 }] := by
  constructor
  · intro sites links d
    constructor
    · intro hd
      rcases List.mem_map.mp hd with ⟨l, hlf, hld⟩
      rcases List.mem_filter.mp hlf with ⟨hl, hkeep⟩
      simp only [keepLink, Bool.and_eq_true, decide_eq_true_eq] at hkeep
      obtain ⟨⟨hsc, hs⟩, ht⟩ := hkeep
      subst hld
      refine ⟨⟨l, hl, rfl, rfl, rfl⟩, ?_, ?_, ?_⟩
      · rw [← mkRat_one_five]; exact hsc
      · exact List.elem_iff.mp hs
      · exact List.elem_iff.mp ht
    · rintro ⟨⟨l, hl, h1, h2, h3⟩, hsc, hs, ht⟩
      apply List.mem_map.mpr
      refine ⟨l, List.mem_filter.mpr ⟨hl, ?_⟩, ?_⟩
      · simp only [keepLink, Bool.and_eq_true, decide_eq_true_eq]
        refine ⟨⟨?_, ?_⟩, ?_⟩
        · rw [h3, mkRat_one_five]; exact hsc
        · exact List.elem_iff.mpr (by rw [h1]; exact hs)
        · exact List.elem_iff.mpr (by rw [h2]; exact ht)
      · rw [h1, h2, h3]
  · decide

/-- C9 counterexample: on a converged state (`alpha = 0`) a drag-start pins the
node at its current location but leaves `alpha` at `0`: it is not reset to the
starting value `1`; only the alpha target becomes 0.3. -/
theorem dragstarted_no_alpha_reset :
    (dragstarted false dragDemoState dragDemoNode).2.fx = some 5 ∧
    (dragstarted false dragDemoState dragDemoNode).2.fy = some 7 ∧
    (dragstarted false dragDemoState dragDemoNode).1.alpha = 0 ∧
    (0 : ℚ) ≠ 1 ∧
    (dragstarted false dragDemoState dragDemoNode).1.alphaTarget = mkRat 3 10 := by
  refine ⟨rfl, rfl, rfl, by norm_num, rfl⟩

/-- C9 (amended): a drag-start pins the dragged node at its current location
and, when no drag gesture is already active, sets the simulation's alpha
*target* to 0.3 and restarts ticking (Running/Dragging); `alpha` itself is not
modified. -/
theorem dragstarted_spec (active : Bool) (s : SimState) (n : DragNode) :
    dragstarted active s n =
      ((if active then s else { s with alphaTarget := mkRat 3 10, running := true }),
        { n with fx := some n.x, fy := some n.y }) := by
  cases active <;> rfl

/-- C10: the similarity-matrix lookup returns `1` on equal identifiers, the
stored score of the first result matching the pair in either orientation
otherwise, and `0` when no result matches. -/
theorem getScore_spec (results : List SimilarityResult) (id1 id2 : String) :
    (id1 = id2 → getScore results id1 id2 = 1) ∧
    (id1 ≠ id2 →
      ∀ r, results.find? (fun r => matchPair r id1 id2) = some r →
        getScore results id1 id2 = r.score) ∧
    (id1 ≠ id2 → results.find? (fun r => matchPair r id1 id2) = none →
      getScore results id1 id2 = 0) := by
  refine ⟨?_, ?_, ?_⟩
  · intro h
    simp [getScore, h]
  · intro h r hr
    simp [getScore, h, hr]
  · intro h hr
    simp [getScore, h, hr]

/-- C10 witness: on the demo data, the diagonal is `1`, the pair `(a,b)` hits
the first stored result (score 0.25, also found in the flipped orientation),
and an unknown pair scores `0`. -/
theorem getScore_spec_witness :
    getScore demoLinks demoA.id demoA.id = 1 ∧
    getScore demoLinks demoA.id demoB.id = mkRat 1 4 ∧
    getScore demoLinks demoB.id demoA.id = mkRat 1 4 ∧
    getScore demoLinks demoA.id absentId = 0 := by
  refine ⟨?_, ?_, ?_, ?_⟩
  · exact (getScore_spec demoLinks demoA.id demoA.id).1 rfl
  · exact (getScore_spec demoLinks demoA.id demoB.id).2.1 (by decide) demoLink25 (by decide)
  · exact (getScore_spec demoLinks demoB.id demoA.id).2.1 (by decide) demoLink25 (by decide)
  · exact (getScore_spec demoLinks demoA.id absentId).2.2 (by decide) (by decide)

/-- C6: the fuzzy chronology mapper strips the input to lowercase
alphanumerics and returns the category of the first keyword group (in the
fixed order MEGALITHIC, SANGAM, EARLY_HISTORIC, MEDIEVAL) containing a
matching substring, UNKNOWN when none matches; on the two example inputs it
yields MEGALITHIC and UNKNOWN. -/
theorem mapChronologyFuzzy_spec :
    (∀ raw : String,
      (groupHit mgMegalithic raw = true → mapChronologyFuzzy raw = Chronology.MEGALITHIC) ∧
      (groupHit mgMegalithic raw = false → groupHit mgSangam raw = true →
        mapChronologyFuzzy raw = Chronology.SANGAM) ∧
      (groupHit mgMegalithic raw = false → groupHit mgSangam raw = false →
        groupHit mgEarlyHistoric raw = true →
        mapChronologyFuzzy raw = Chronology.EARLY_HISTORIC) ∧
      (groupHit mgMegalithic raw = false → groupHit mgSangam raw = false →
        groupHit mgEarlyHistoric raw = false → groupHit mgMedieval raw = true →
        mapChronologyFuzzy raw = Chronology.MEDIEVAL) ∧
      (groupHit mgMegalithic raw = false → groupHit mgSangam raw = false →
        groupHit mgEarlyHistoric raw = false → groupHit mgMedieval raw = false →
        mapChronologyFuzzy raw = Chronology.UNKNOWN)) ∧
    mapChronologyFuzzy exMega = Chronology.MEGALITHIC ∧
    mapChronologyFuzzy exUnrelated = Chronology.UNKNOWN := by
  refine ⟨?_, by decide, by decide⟩
  intro raw
  refine ⟨?_, ?_, ?_, ?_, ?_⟩
  · intro h1
    simp only [mapChronologyFuzzy, mappingGroups, List.find?, h1]
    rfl
  · intro h1 h2
    simp only [mapChronologyFuzzy, mappingGroups, List.find?, h1, h2]
    rfl
  · intro h1 h2 h3
    simp only [mapChronologyFuzzy, mappingGroups, List.find?, h1, h2, h3]
    rfl
  · intro h1 h2 h3 h4
    simp only [mapChronologyFuzzy, mappingGroups, List.find?, h1, h2, h3, h4]
    rfl
  · intro h1 h2 h3 h4
    simp only [mapChronologyFuzzy, mappingGroups, List.find?, h1, h2, h3, h4]

/-- C6 witness: the MEGALITHIC group matches the stripped form of
"Megalithic Age burial", and the mapper returns MEGALITHIC there. -/
theorem mapChronologyFuzzy_spec_witness :
    groupHit mgMegalithic exMega = true ∧
    mapChronologyFuzzy exMega = Chronology.MEGALITHIC :=
  ⟨by decide, (mapChronologyFuzzy_spec.1 exMega).1 (by decide)⟩

/-- C7: for every raw chronology label list, the stored chronology of an
ingested site is nonempty, contains UNKNOWN only as its sole element, and
defaults to `[UNKNOWN]` when the mapped list is empty. -/
theorem finalChronology_spec (raws : List String) :
    finalChronology raws ≠ [] ∧
    (Chronology.UNKNOWN ∈ finalChronology raws →
      finalChronology raws = [Chronology.UNKNOWN]) ∧
    (raws.map mapChronologyFuzzy = [] → finalChronology raws = [Chronology.UNKNOWN]) := by
  simp only [finalChronology]
  by_cases h1 : 1 < (dedupFirst (raws.map mapChronologyFuzzy)).length
  · rw [if_pos h1]
    by_cases h2 : 0 < ((dedupFirst (raws.map mapChronologyFuzzy)).filter
        (fun c => decide (c ≠ Chronology.UNKNOWN))).length
    · rw [if_pos h2]
      refine ⟨?_, ?_, ?_⟩
      · exact List.length_pos.mp h2
      · intro hmem
        rcases List.mem_filter.mp hmem with ⟨-, hdec⟩
        simp at hdec
      · intro hmap
        rw [hmap] at h1
        simp [dedupFirst, dedupFirstAux] at h1
    · rw [if_neg h2]
      exact ⟨by simp, fun _ => rfl, fun _ => rfl⟩
  · rw [if_neg h1]
    by_cases h2 : 0 < (dedupFirst (raws.map mapChronologyFuzzy)).length
    · rw [if_pos h2]
      have hlen : (dedupFirst (raws.map mapChronologyFuzzy)).length = 1 := by omega
      rcases List.length_eq_one.mp hlen with ⟨x, hx⟩
      refine ⟨?_, ?_, ?_⟩
      · rw [hx]; simp
      · intro hmem
        rw [hx] at hmem ⊢
        simp only [List.mem_singleton] at hmem
        rw [hmem]
      · intro hmap
        rw [hmap] at h2
        simp [dedupFirst, dedupFirstAux] at h2
    · rw [if_neg h2]
      exact ⟨by simp, fun _ => rfl, fun _ => rfl⟩

/-- C7 witness: an empty raw-label list maps to the default `[UNKNOWN]`, and a
list mapping to both MEGALITHIC and UNKNOWN keeps only MEGALITHIC. -/
theorem finalChronology_spec_witness :
    finalChronology [] = [Chronology.UNKNOWN] ∧
    Chronology.UNKNOWN ∉ finalChronology [exMega, exUnrelated] :=
  ⟨(finalChronology_spec []).2.2 rfl,
    fun hmem => by
      have := (finalChronology_spec [exMega, exUnrelated]).2.1 hmem
      rw [show finalChronology [exMega, exUnrelated] =
        [Chronology.MEGALITHIC] from by decide] at this
      exact absurd this (by decide)⟩

/-- Every JavaScript `| 0` result lies in the signed 32-bit range. -/
theorem toInt32_range (x : ℤ) : -(2 ^ 31) ≤ toInt32 x ∧ toInt32 x < 2 ^ 31 := by
  unfold toInt32
  have h1 : (0 : ℤ) ≤ (x + 2 ^ 31) % 2 ^ 32 := Int.emod_nonneg _ (by norm_num)
  have h2 : (x + 2 ^ 31) % 2 ^ 32 < 2 ^ 32 := Int.emod_lt_of_pos _ (by norm_num)
  norm_num at h1 h2 ⊢
  omega

/-- The rolling hash accumulator stays in the signed 32-bit range. -/
theorem hash32_range (str : String) :
    -(2 ^ 31) ≤ hash32 str ∧ hash32 str < 2 ^ 31 := by
  unfold hash32
  have inv : ∀ (l : List Char) (h : ℤ), -(2 ^ 31) ≤ h → h < 2 ^ 31 →
      -(2 ^ 31) ≤ l.foldl hashStep h ∧ l.foldl hashStep h < 2 ^ 31 := by
    intro l
    induction l with
    | nil => intro h hl hr; exact ⟨hl, hr⟩
    | cons c cs ih =>
      intro h hl hr
      simp only [List.foldl_cons]
      have hs := toInt32_range (toInt32 (h * 32) - h + c.toNat)
      exact ih (hashStep h c) hs.1 hs.2
  exact inv str.data 0 (by norm_num) (by norm_num)

/-- C8: identifier derivation is a pure function (identical inputs give the
identical identifier), the identifier has the composite form
`{name}-{district}-{hash}` with the hash the base-36 rendering of the absolute
value (hence nonnegative) of the rolling accumulator, and that accumulator is
kept in the signed 32-bit range throughout. -/
theorem siteId_spec (n d s : String) :
    siteId n d s = siteId n d s ∧
    siteId n d s =
      n ++ "-" ++ d ++ "-" ++ toBase36 (hash32 (n ++ "-" ++ d ++ "-" ++ s)).natAbs ∧
    -(2 ^ 31) ≤ hash32 (n ++ "-" ++ d ++ "-" ++ s) ∧
    hash32 (n ++ "-" ++ d ++ "-" ++ s) < 2 ^ 31 :=
  ⟨rfl, rfl, (hash32_range _).1, (hash32_range _).2⟩

/-- `countP` only depends on the predicate's values on the list. -/
theorem countP_ext {α : Type} (p q : α → Bool) :
    ∀ l : List α, (∀ x ∈ l, p x = q x) → l.countP p = l.countP q := by
  intro l
  induction l with
  | nil => intro _; rfl
  | cons c cs ih =>
    intro h
    simp only [List.countP_cons, h c (List.mem_cons_self c cs),
      ih (fun x hx => h x (List.mem_cons_of_mem c hx))]

/-- In a list of sites with pairwise distinct identifiers, exactly one element
carries the identifier of a member. -/
theorem countP_id_eq_one {b : Site} :
    ∀ rest : List Site, (rest.map Site.id).Nodup → b ∈ rest →
      rest.countP (fun x => decide (x.id = b.id)) = 1 := by
  intro rest
  induction rest with
  | nil => intro _ hb; cases hb
  | cons c cs ih =>
    intro hnd hb
    simp only [List.map_cons, List.nodup_cons] at hnd
    obtain ⟨hc, hnd'⟩ := hnd
    rcases List.mem_cons.mp hb with rfl | hb'
    · rw [List.countP_cons_of_pos _ _ (by simp)]
      have h0 : cs.countP (fun x => decide (x.id = b.id)) = 0 := by
        rw [List.countP_eq_zero]
        intro x hx
        simp only [decide_eq_true_eq]
        intro hxid
        exact hc (hxid ▸ List.mem_map.mpr ⟨x, hx, rfl⟩)
      rw [h0]
    · rw [List.countP_cons_of_neg]
      · exact ih hnd' hb'
      · simp only [decide_eq_true_eq]
        intro hcb
        exact hc (by rw [hcb]; exact List.mem_map.mpr ⟨b, hb', rfl⟩)

/-- Every result produced by the pairwise loop references identifiers of the
input working set. -/
theorem pairResults_mem_ids {r : SimilarityResult} :
    ∀ {l : List Site}, r ∈ pairResults l →
      r.sourceId ∈ l.map Site.id ∧ r.targetId ∈ l.map Site.id := by
  intro l
  induction l with
  | nil => intro h; simp [pairResults] at h
  | cons a rest ih =>
    intro h
    simp only [pairResults, List.mem_append] at h
    rcases h with h | h
    · rcases List.mem_map.mp h with ⟨b, hb, rfl⟩
      constructor
      · simp [mkSimResult]
      · simp only [mkSimResult, List.map_cons, List.mem_cons]
        exact Or.inr (List.mem_map.mpr ⟨b, hb, rfl⟩)
    · rcases ih h with ⟨h1, h2⟩
      constructor
      · simp only [List.map_cons, List.mem_cons]
        exact Or.inr h1
      · simp only [List.map_cons, List.mem_cons]
        exact Or.inr h2

/-- Twice the number of produced results is `n * (n - 1)`. -/
theorem pairResults_two_mul_length (l : List Site) :
    2 * (pairResults l).length = l.length * (l.length - 1) := by
  induction l with
  | nil => rfl
  | cons a rest ih =>
    simp only [pairResults, List.length_append, List.length_map, List.length_cons,
      Nat.add_sub_cancel]
    cases hm : rest.length with
    | zero =>
      rw [hm] at ih
      have h0 : (pairResults rest).length = 0 := by omega
      simp [h0]
    | succ k =>
      rw [hm] at ih
      simp only [Nat.succ_sub_one] at ih
      calc 2 * (k + 1 + (pairResults rest).length)
          = 2 * (k + 1) + 2 * (pairResults rest).length := by ring
        _ = 2 * (k + 1) + (k + 1) * k := by rw [ih]
        _ = (k + 1 + 1) * (k + 1) := by ring

/-- Each unordered pair of distinct member identifiers is carried by exactly
one result of the pairwise loop. -/
theorem pairResults_countP_eq_one (a b : Site) (hab : a.id ≠ b.id) :
    ∀ l : List Site, (l.map Site.id).Nodup → a ∈ l → b ∈ l →
      (pairResults l).countP (fun r => matchPair r a.id b.id) = 1 := by
  intro l
  induction l with
  | nil => intro _ ha; cases ha
  | cons s rest ih =>
    intro hnd ha hb
    simp only [List.map_cons, List.nodup_cons] at hnd
    obtain ⟨hs_nin, hnd'⟩ := hnd
    simp only [pairResults, List.countP_append, List.countP_map]
    by_cases hsa : s.id = a.id
    · have hsb : s.id ≠ b.id := fun h => hab (hsa.symm.trans h)
      have hb' : b ∈ rest := by
        rcases List.mem_cons.mp hb with rfl | hb'
        · exact absurd rfl hsb
        · exact hb'
      have hfst : rest.countP ((fun r => matchPair r a.id b.id) ∘ mkSimResult s)
          = rest.countP (fun x => decide (x.id = b.id)) := by
        apply countP_ext
        intro x _
        simp only [Function.comp_apply, matchPair, mkSimResult]
        rw [decide_eq_decide]
        constructor
        · rintro (⟨-, h⟩ | ⟨hsb', -⟩)
          · exact h
          · exact absurd hsb' hsb
        · intro h
          exact Or.inl ⟨hsa, h⟩
      have hsnd : (pairResults rest).countP (fun r => matchPair r a.id b.id) = 0 := by
        rw [List.countP_eq_zero]
        intro r hr
        have hids := pairResults_mem_ids hr
        simp only [matchPair, decide_eq_true_eq]
        rintro (⟨h1, -⟩ | ⟨-, h2⟩)
        · exact hs_nin (by rw [hsa, ← h1]; exact hids.1)
        · exact hs_nin (by rw [hsa, ← h2]; exact hids.2)
      rw [hfst, hsnd, countP_id_eq_one rest hnd' hb']
    · by_cases hsb : s.id = b.id
      · have ha' : a ∈ rest := by
          rcases List.mem_cons.mp ha with rfl | ha'
          · exact absurd rfl hsa
          · exact ha'
        have hfst : rest.countP ((fun r => matchPair r a.id b.id) ∘ mkSimResult s)
            = rest.countP (fun x => decide (x.id = a.id)) := by
          apply countP_ext
          intro x _
          simp only [Function.comp_apply, matchPair, mkSimResult]
          rw [decide_eq_decide]
          constructor
          · rintro (⟨hsa', -⟩ | ⟨-, h⟩)
            · exact absurd hsa' hsa
            · exact h
          · intro h
            exact Or.inr ⟨hsb, h⟩
        have hsnd : (pairResults rest).countP (fun r => matchPair r a.id b.id) = 0 := by
          rw [List.countP_eq_zero]
          intro r hr
          have hids := pairResults_mem_ids hr
          simp only [matchPair, decide_eq_true_eq]
          rintro (⟨-, h2⟩ | ⟨h1, -⟩)
          · exact hs_nin (by rw [hsb, ← h2]; exact hids.2)
          · exact hs_nin (by rw [hsb, ← h1]; exact hids.1)
        rw [hfst, hsnd, countP_id_eq_one rest hnd' ha']
      · have ha' : a ∈ rest := by
          rcases List.mem_cons.mp ha with rfl | ha'
          · exact absurd rfl hsa
          · exact ha'
        have hb' : b ∈ rest := by
          rcases List.mem_cons.mp hb with rfl | hb'
          · exact absurd rfl hsb
          · exact hb'
        have hfst : rest.countP ((fun r => matchPair r a.id b.id) ∘ mkSimResult s) = 0 := by
          rw [List.countP_eq_zero]
          intro x _
          simp only [Function.comp_apply, matchPair, mkSimResult, decide_eq_true_eq]
          rintro (⟨h, -⟩ | ⟨h, -⟩)
          · exact hsa h
          · exact hsb h
        rw [hfst, ih hnd' ha' hb']

/-- C4: recomputing the similarity data over a working set of `n` sites with
distinct identifiers produces exactly `n * (n - 1) / 2` results, and each
unordered pair of distinct member identifiers appears in exactly one of them. -/
theorem pairResults_complete (sites : List Site) (hnd : (sites.map Site.id).Nodup) :
    (pairResults sites).length = sites.length * (sites.length - 1) / 2 ∧
    ∀ a b, a ∈ sites → b ∈ sites → a.id ≠ b.id →
      (pairResults sites).countP (fun r => matchPair r a.id b.id) = 1 := by
  constructor
  · have h := pairResults_two_mul_length sites
    omega
  · intro a b ha hb hab
    exact pairResults_countP_eq_one a b hab sites hnd ha hb

/-- C4 witness: on the five bundled sites the loop produces `5 * 4 / 2`
results, and the Adichanallur/Keezhadi pair appears exactly once. -/
theorem pairResults_complete_witness :
    (pairResults TN_SITES).length = TN_SITES.length * (TN_SITES.length - 1) / 2 ∧
    (pairResults TN_SITES).countP
      (fun r => matchPair r adichanallur.id keezhadi.id) = 1 := by
  have h := pairResults_complete TN_SITES (by decide)
  exact ⟨h.1, h.2 adichanallur keezhadi (by simp [TN_SITES]) (by simp [TN_SITES]) (by decide)⟩

end ArtifactAi
